import Mathlib

/-!
PopupForm (frontend/src/PopupForm.jsx)

A shallow embedding of the lead-capture popup component: its JavaScript string
primitives, the validation of the form, the submit handler, the render policy,
the URL-based "already submitted" detection and the auto-show timer.

JavaScript strings are modelled by `String`; every character class the component
uses (`\s`, `\D`, `@`, `.`) lies in the Basic Multilingual Plane, and both code
units of a surrogate pair fall on the same side of each class, so working with
code points instead of UTF-16 code units does not change any result below.
-/

namespace PopupForm

/-! ## JavaScript string primitives -/

/-- ECMAScript `WhiteSpace` and `LineTerminator` code points: what the regular
expression class `\s` matches and what `String.prototype.trim` strips. -/
def isWhiteSpace (c : Char) : Bool :=
  c.toNat == 0x09 || c.toNat == 0x0A || c.toNat == 0x0B || c.toNat == 0x0C ||
  c.toNat == 0x0D || c.toNat == 0x20 || c.toNat == 0xA0 || c.toNat == 0x1680 ||
  (0x2000 ≤ c.toNat && c.toNat ≤ 0x200A) || c.toNat == 0x2028 || c.toNat == 0x2029 ||
  c.toNat == 0x202F || c.toNat == 0x205F || c.toNat == 0x3000 || c.toNat == 0xFEFF

/-- The class `\d` (without the unicode flag): ASCII `0`-`9`. -/
def isDigit (c : Char) : Bool :=
  0x30 ≤ c.toNat && c.toNat ≤ 0x39

/-- The class `\D`: everything that is not `\d`. -/
def isNonDigit (c : Char) : Bool :=
  !isDigit c

/-- The class `[^\s@]`. -/
def isNotSpaceOrAt (c : Char) : Bool :=
  !(isWhiteSpace c || c == '@')

/-- `String.prototype.trim`: white space is dropped from both ends. -/
def trim (s : String) : String :=
  ⟨((s.data.dropWhile isWhiteSpace).reverse.dropWhile isWhiteSpace).reverse⟩

/-- JavaScript truthiness of a string: only the empty string is falsy. -/
def truthy (s : String) : Bool :=
  !s.data.isEmpty

/-- `s.replace(/[class]/g, rep)` for a one-character class: every character of
the class is replaced by `rep`, the others are kept in place. -/
def replaceAll (cls : Char → Bool) (rep : String) (s : String) : String :=
  ⟨s.data.flatMap (fun c => if cls c then rep.data else [c])⟩

/-! ## Regular expressions -/

/-- Regular expressions over characters with predicate character classes. -/
inductive RegExp where
  | empty : RegExp
  | eps : RegExp
  | cls (p : Char → Bool) : RegExp
  | seq (a b : RegExp) : RegExp
  | alt (a b : RegExp) : RegExp
  | star (a : RegExp) : RegExp

namespace RegExp

/-- The quantifier `+`. -/
def plus (r : RegExp) : RegExp :=
  seq r (star r)

/-- A single literal character. -/
def lit (c : Char) : RegExp :=
  cls (fun x => x == c)

/-- Whether the expression accepts the empty string. -/
def nullable : RegExp → Bool
  | empty => false
  | eps => true
  | cls _ => false
  | seq a b => nullable a && nullable b
  | alt a b => nullable a || nullable b
  | star _ => true

/-- Brzozowski derivative of an expression by one character. -/
def deriv : RegExp → Char → RegExp
  | empty, _ => empty
  | eps, _ => empty
  | cls p, c => if p c then eps else empty
  | seq a b, c =>
      if nullable a then alt (seq (deriv a c) b) (deriv b c) else seq (deriv a c) b
  | alt a b, c => alt (deriv a c) (deriv b c)
  | star a, c => seq (deriv a c) (star a)

/-- `/^r$/.test(s)`: the whole string is matched by `r`. -/
def test (r : RegExp) (s : String) : Bool :=
  nullable (s.data.foldl deriv r)

/-- Declarative semantics: the strings an expression denotes. -/
inductive Matches : RegExp → List Char → Prop
  | eps : Matches eps []
  | cls (p : Char → Bool) (c : Char) : p c = true → Matches (cls p) [c]
  | seq (a b : RegExp) (u v : List Char) :
      Matches a u → Matches b v → Matches (seq a b) (u ++ v)
  | altL (a b : RegExp) (u : List Char) : Matches a u → Matches (alt a b) u
  | altR (a b : RegExp) (u : List Char) : Matches b u → Matches (alt a b) u
  | starNil (a : RegExp) : Matches (star a) []
  | starCons (a : RegExp) (u v : List Char) :
      Matches a u → Matches (star a) v → Matches (star a) (u ++ v)

end RegExp

/-- The pattern `^[^\s@]+@[^\s@]+\.[^\s@]+$` of `validateForm`. -/
def emailPattern : RegExp :=
  .seq (.plus (.cls isNotSpaceOrAt))
    (.seq (.lit '@')
      (.seq (.plus (.cls isNotSpaceOrAt))
        (.seq (.lit '.') (.plus (.cls isNotSpaceOrAt)))))

/-! ## Plain objects with string values -/

/-- A JavaScript object whose property values are strings, keys in insertion order. -/
abbrev Obj := List (String × String)

namespace Obj

/-- Property assignment `o[k] = v`. -/
def set : Obj → String → String → Obj
  | [], k, v => [(k, v)]
  | (k', v') :: o, k, v => if k' = k then (k, v) :: o else (k', v') :: set o k v

/-- Property read `o[k]`; `none` stands for `undefined`. -/
def get : Obj → String → Option String
  | [], _ => none
  | (k', v') :: o, k => if k' = k then some v' else get o k

/-- The list `Object.keys(o)`. -/
def keys (o : Obj) : List String :=
  o.map Prod.fst

end Obj

/-! ## Component state -/

/-- The `formData` state cell. -/
structure FormData where
  name : String
  email : String
  mobile : String
  agreeTerms : Bool
  ip : String
  deriving DecidableEq

/-- The `useState` cells of the component. -/
structure State where
  showPopup : Bool
  showThankYou : Bool
  hasSubmitted : Bool
  formData : FormData
  errors : Obj
  isSubmitting : Bool
  deriving DecidableEq

/-- The values the `useState` calls start from. -/
def initialState : State :=
  { showPopup := false
    showThankYou := false
    hasSubmitted := false
    formData := { name := "", email := "", mobile := "", agreeTerms := false, ip := "" }
    errors := []
    isSubmitting := false }

/-- The error mapping `newErrors` built by `validateForm` from `formData`. -/
def newErrors (formData : FormData) : Obj :=
  let e0 : Obj := []
  let e1 := if !truthy (trim formData.name) then e0.set "name" "Name is required" else e0
  let e2 := if !emailPattern.test formData.email
    then e1.set "email" "Invalid email address" else e1
  let onlyDigits := replaceAll isNonDigit "" formData.mobile
  let e3 := if onlyDigits.length < 10
    then e2.set "mobile" "Mobile must be at least 10 digits" else e2
  let e4 := if !formData.agreeTerms
    then e3.set "agreeTerms" "You must agree to the terms" else e3
  e4

/-- `validateForm`: stores the new error mapping (`setErrors`) and returns whether
it has no key. -/
def validateForm (s : State) : Bool × State :=
  let errs := newErrors s.formData
  (decide ((Obj.keys errs).length = 0), { s with errors := errs })

/-- An object holds the message under a key exactly when the rule of the key fails,
and holds nothing under the key otherwise. -/
def EntryIff (o : Obj) (k msg : String) (fails : Prop) : Prop :=
  (o.get k = some msg ↔ fails) ∧ (o.get k = none ↔ ¬ fails)

/-- First example of the specification for the validation. -/
def exampleNameMobile : FormData :=
  { name := "", email := "a@b.com", mobile := "12345", agreeTerms := true, ip := "" }

/-- Second example of the specification for the validation. -/
def exampleEmailTerms : FormData :=
  { name := "Jo", email := "bad-email", mobile := "9876543210", agreeTerms := false, ip := "" }

/-! ## Props and rendering -/

/-- The `show` prop as far as `typeof` tells its values apart. -/
inductive ShowProp where
  | undefined
  | boolean (b : Bool)
  | other
  deriving DecidableEq

/-- The props of the component: `show` and whether a truthy `onClose` is passed. -/
structure Props where
  externalShow : ShowProp
  externalOnClose : Bool
  deriving DecidableEq

/-- The value of `isShown`:
`typeof externalShow === "boolean" ? externalShow : showPopup`. -/
def isShown (props : Props) (s : State) : Bool :=
  match props.externalShow with
  | .boolean b => b
  | _ => s.showPopup

/-- The text under a field, `errors.k && <p>errors.k</p>`. -/
def errorText (errors : Obj) (k : String) : Option String :=
  match errors.get k with
  | some v => if truthy v then some v else none
  | none => none

/-- What the lead form shows. -/
structure LeadForm where
  name : String
  email : String
  mobile : String
  agreeTerms : Bool
  nameError : Option String
  emailError : Option String
  mobileError : Option String
  agreeTermsError : Option String
  submitDisabled : Bool
  submitLabel : String
  thankYou : Bool
  deriving DecidableEq

/-- The output of one render. -/
inductive View where
  | null
  | thankYouModal
  | leadForm (form : LeadForm)
  deriving DecidableEq

/-- The JSX of the lead form branch. -/
def leadFormOf (s : State) : LeadForm :=
  { name := s.formData.name
    email := s.formData.email
    mobile := s.formData.mobile
    agreeTerms := s.formData.agreeTerms
    nameError := errorText s.errors "name"
    emailError := errorText s.errors "email"
    mobileError := errorText s.errors "mobile"
    agreeTermsError := errorText s.errors "agreeTerms"
    submitDisabled := s.isSubmitting
    submitLabel := if s.isSubmitting then "Submitting..." else "Submit your request"
    thankYou := s.showThankYou }

/-- The return value of the component function. -/
def render (props : Props) (s : State) : View :=
  if s.hasSubmitted then
    if s.showThankYou then .thankYouModal else .null
  else if !isShown props s then .null
  else .leadForm (leadFormOf s)

/-- Whether a view contains the lead form. -/
def View.hasLeadForm : View → Bool
  | .leadForm _ => true
  | _ => false

/-- Whether a view contains the confirmation modal. -/
def View.hasThankYou : View → Bool
  | .thankYouModal => true
  | .leadForm f => f.thankYou
  | .null => false

/-! ## The page URL -/

/-- The page: the parts of `window.location` the component depends on, and whether
the document lets `history.pushState` rewrite its URL by a reference that is only a
query. It does on an ordinary `http(s)` page; on a document whose URL has an opaque
path (`about:blank`, an `iframe` filled through `srcdoc`) or that is not fully
active, `pushState` throws a `SecurityError` instead. -/
structure Location where
  pathname : String
  search : String
  hash : String
  rewritable : Bool
  deriving DecidableEq

/-- Value of a hexadecimal digit. -/
def hexVal (c : Char) : Option Nat :=
  if 0x30 ≤ c.toNat && c.toNat ≤ 0x39 then some (c.toNat - 0x30)
  else if 0x41 ≤ c.toNat && c.toNat ≤ 0x46 then some (c.toNat - 0x41 + 10)
  else if 0x61 ≤ c.toNat && c.toNat ≤ 0x66 then some (c.toNat - 0x61 + 10)
  else none

/-- Percent-decoding, with the number of characters still to skip after a decoded
`%XY`. A decoded byte is kept as the character of that code; the browser goes on to
decode bytes above `0x7F` as UTF-8, which yields non-ASCII text in both cases, and
the component only compares the result with ASCII strings. -/
def percentDecodeFrom : Nat → List Char → List Char
  | _, [] => []
  | skip + 1, _ :: rest => percentDecodeFrom skip rest
  | 0, c :: rest =>
    if c = '%' then
      match rest.head? >>= hexVal, rest.tail.head? >>= hexVal with
      | some a, some b => Char.ofNat (16 * a + b) :: percentDecodeFrom 2 rest
      | _, _ => c :: percentDecodeFrom 0 rest
    else c :: percentDecodeFrom 0 rest

/-- Percent-decoding of a whole sequence. -/
def percentDecode (l : List Char) : List Char :=
  percentDecodeFrom 0 l

/-- Splitting at every occurrence of a separator. -/
def splitOn (sep : Char) : List Char → List (List Char)
  | [] => [[]]
  | c :: cs =>
    if c = sep then [] :: splitOn sep cs
    else
      match splitOn sep cs with
      | [] => [[c]]
      | x :: xs => (c :: x) :: xs

/-- One name-value pair of the `application/x-www-form-urlencoded` parser: split
at the first `=`, turn `+` into a space, percent-decode. -/
def parsePair (seq : List Char) : String × String :=
  let name := seq.takeWhile (fun c => c != '=')
  let value := (seq.dropWhile (fun c => c != '=')).drop 1
  let plus := fun (l : List Char) => l.map (fun c => if c = '+' then ' ' else c)
  (⟨percentDecode (plus name)⟩, ⟨percentDecode (plus value)⟩)

/-- The pairs of `new URLSearchParams(search)`: a leading `?` is dropped, the rest is
split at `&`, empty pieces are skipped. -/
def urlSearchParams (search : String) : List (String × String) :=
  let input := match search.data with
    | '?' :: rest => rest
    | l => l
  ((splitOn '&' input).filter (fun seq => !seq.isEmpty)).map parsePair

/-- The method `params.get(name)`: the value of the first pair with that name. -/
def paramsGet (params : List (String × String)) (name : String) : Option String :=
  match params.find? (fun p => p.1 = name) with
  | some p => some p.2
  | none => none

/-- The test of the first effect: `params.get("submitted") === "true"`. -/
def detectSubmitted (search : String) : Bool :=
  paramsGet (urlSearchParams search) "submitted" = some "true"

/-- The location after an accepted `history.pushState(_, _, ref)` for a reference
`ref` that is only a query (`?...` without `#`): the path is kept, the query
replaced, the fragment dropped. -/
def pushStateQuery (ref : String) (loc : Location) : Location :=
  { pathname := loc.pathname, search := ref, hash := "", rewritable := loc.rewritable }

/-! ## The component as a system: state, page, timer and outside calls -/

/-- The calls the component makes to the outside, in the order they happen. -/
inductive Call where
  | preventDefault
  | axiosGet (url : String)
  | axiosPost (url : String) (data : Obj)
  | pushState (url : String)
  | alert (message : String)
  | externalOnClose
  deriving DecidableEq

/-- A mounted (or torn down) instance of the component together with the page it
lives in. `timer` is the pending auto-show timeout with the milliseconds left,
`effectDeps` the dependency array `[externalShow, hasSubmitted]` of the last run of
the timer effect. -/
structure Sys where
  props : Props
  state : State
  location : Location
  mounted : Bool
  timer : Option Nat
  effectDeps : ShowProp × Bool
  ipPending : Bool
  postsInFlight : Nat
  calls : List Call
  deriving DecidableEq

/-- State setter `setShowPopup`. -/
def setShowPopup (b : Bool) (s : Sys) : Sys :=
  { s with state := { s.state with showPopup := b } }

/-- State setter `setShowThankYou`. -/
def setShowThankYou (b : Bool) (s : Sys) : Sys :=
  { s with state := { s.state with showThankYou := b } }

/-- State setter `setHasSubmitted`. -/
def setHasSubmitted (b : Bool) (s : Sys) : Sys :=
  { s with state := { s.state with hasSubmitted := b } }

/-- State setter `setIsSubmitting`. -/
def setIsSubmitting (b : Bool) (s : Sys) : Sys :=
  { s with state := { s.state with isSubmitting := b } }

/-- State setter `setFormData` with an updater function of the previous value. -/
def setFormData (f : FormData → FormData) (s : Sys) : Sys :=
  { s with state := { s.state with formData := f s.state.formData } }

/-- Records a call to the outside. -/
def call (c : Call) (s : Sys) : Sys :=
  { s with calls := s.calls ++ [c] }

/-- How a block of statements ends. -/
inductive Completion where
  | normal
  | throw
  deriving DecidableEq

/-- A block of statements: it transforms the system and completes or throws. -/
abbrev Stmt := Sys → Completion × Sys

namespace Stmt

/-- Statements that cannot throw. -/
def exec (f : Sys → Sys) : Stmt :=
  fun s => (.normal, f s)

/-- Statement `throw`; also an `await` of a rejected promise. -/
def raise : Stmt :=
  fun s => (.throw, s)

/-- Sequencing: what follows a throwing block is skipped. -/
def seq (a b : Stmt) : Stmt :=
  fun s =>
    match a s with
    | (.normal, s1) => b s1
    | (.throw, s1) => (.throw, s1)

/-- Statement `try { body } catch (err) { handler } finally { fin }`. -/
def tryCatchFinally (body handler fin : Stmt) : Stmt :=
  fun s =>
    let r1 := body s
    let r2 := match r1 with
      | (.normal, s1) => (Completion.normal, s1)
      | (.throw, s1) => handler s1
    let r3 := fin r2.2
    match r3 with
    | (.normal, s3) => (r2.1, s3)
    | (.throw, s3) => (.throw, s3)

end Stmt

/-! ## Event handlers -/

/-- `handleClose`. -/
def handleClose (s : Sys) : Sys :=
  let s := setShowPopup false s
  if s.props.externalOnClose then call .externalOnClose s else s

/-- The `e.target` of the inputs wired to `handleInputChange`: the text inputs
`name` and `email` and the checkbox `agreeTerms`. -/
inductive InputTarget where
  | name (value : String)
  | email (value : String)
  | agreeTerms (checked : Bool)
  deriving DecidableEq

/-- `handleInputChange`: `[name]: type === "checkbox" ? checked : value`. -/
def handleInputChange (target : InputTarget) (s : Sys) : Sys :=
  setFormData (fun prev =>
    match target with
    | .name value => { prev with name := value }
    | .email value => { prev with email := value }
    | .agreeTerms checked => { prev with agreeTerms := checked }) s

/-- The `onChange` of the phone input. -/
def handleMobileChange (value : String) (s : Sys) : Sys :=
  setFormData (fun prev => { prev with mobile := value }) s

/-- The `onClose` handed to the confirmation modal. -/
def handleThankYouClose (s : Sys) : Sys :=
  setShowThankYou false s

/-- The lead-submission endpoint. -/
def leadEndpoint : String :=
  "https://api.get-details.com/home/send-email"

/-- The IP lookup endpoint. -/
def ipEndpoint : String :=
  "https://api64.ipify.org?format=json"

/-- The object posted by `handleSubmit`. -/
def postPayload (formData : FormData) : Obj :=
  [("name", formData.name), ("email", formData.email),
   ("mobile", replaceAll isNonDigit "" formData.mobile), ("ip", formData.ip)]

/-- How the promise of `axios.post` settles. -/
inductive PostOutcome where
  | fulfilled
  | rejected
  deriving DecidableEq

/-- `handleSubmit` up to the `await`: returns whether the request was issued. -/
def handleSubmitBegin (s : Sys) : Bool × Sys :=
  let formData := s.state.formData
  let s := call .preventDefault s
  let v := validateForm s.state
  let s := { s with state := v.2 }
  if !v.1 then (false, s)
  else
    let s := setIsSubmitting true s
    let s := call (.axiosPost leadEndpoint (postPayload formData)) s
    (true, { s with postsInFlight := s.postsInFlight + 1 })

/-- Statement `window.history.pushState({}, "", ref)` for a reference that is only a
query: the call is made; it throws where the document does not accept it and
rewrites the URL otherwise. -/
def pushState (ref : String) : Stmt :=
  fun s =>
    let s := call (.pushState ref) s
    if s.location.rewritable then
      (.normal, { s with location := pushStateQuery ref s.location })
    else (.throw, s)

/-- `handleSubmit` from the `await` on, once the request has settled. -/
def handleSubmitResume (outcome : PostOutcome) : Stmt :=
  Stmt.seq (Stmt.exec (fun s => { s with postsInFlight := s.postsInFlight - 1 }))
    (Stmt.tryCatchFinally
      (Stmt.seq
        (match outcome with
          | .fulfilled => Stmt.exec id
          | .rejected => Stmt.raise)
        (Stmt.seq (pushState "?submitted=true")
          (Stmt.exec (fun s =>
            let s := setHasSubmitted true s
            let s := setShowPopup false s
            let s := setShowThankYou true s
            setFormData (fun prev =>
              { name := "", email := "", mobile := "", agreeTerms := false, ip := prev.ip })
              s))))
      (Stmt.exec (call (.alert "Submission failed. Please try again.")))
      (Stmt.exec (setIsSubmitting false)))

/-- `handleSubmit` with nothing else happening while the request is in flight. -/
def handleSubmit (outcome : PostOutcome) : Stmt :=
  fun s =>
    match handleSubmitBegin s with
    | (false, s1) => (.normal, s1)
    | (true, s1) => handleSubmitResume outcome s1

/-- The requests a list of calls contains. -/
def postsOf (calls : List Call) : List (String × Obj) :=
  calls.filterMap (fun c =>
    match c with
    | .axiosPost url data => some (url, data)
    | _ => none)

/-- The validation rules in the words of the specification: name not blank after
trimming, email matching the pattern, at least ten digits in mobile, terms agreed. -/
def RulesPass (formData : FormData) : Prop :=
  trim formData.name ≠ "" ∧ RegExp.Matches emailPattern formData.email.data ∧
    10 ≤ (formData.mobile.data.filter isDigit).length ∧ formData.agreeTerms = true

/-- The calls made between an earlier and a later moment. -/
def issued (before after : Sys) : List Call :=
  after.calls.drop before.calls.length

/-- A form that passes validation. -/
def validForm : FormData :=
  { name := "Jo", email := "a@b.com", mobile := "+91 98765-43210", agreeTerms := true,
    ip := "203.0.113.7" }

/-- A mounted component, driven by the parent, whose visitor has filled in a valid
form on a page with a query and a fragment of its own. -/
def filledSys : Sys :=
  { props := { externalShow := .boolean true, externalOnClose := true }
    state := { initialState with formData := validForm }
    location := { pathname := "/plans", search := "?utm=mail", hash := "#top",
                  rewritable := true }
    mounted := true
    timer := none
    effectDeps := (.boolean true, false)
    ipPending := false
    postsInFlight := 0
    calls := [.axiosGet ipEndpoint] }

/-- The location of an `about:blank` document, on which `pushState` throws. -/
def blankDocument : Location :=
  { pathname := "blank", search := "", hash := "", rewritable := false }

/-- The filled form of `filledSys` in a component that lives in an `about:blank`
document. -/
def filledSysBlank : Sys :=
  { filledSys with location := blankDocument }

/-! ## Effects and the life of the component -/

/-- First effect: `submitted=true` in the URL marks the session as submitted. -/
def urlEffect (s : Sys) : Sys :=
  if detectSubmitted s.location.search then setHasSubmitted true s else s

/-- Second effect: the IP lookup is started. -/
def ipEffect (s : Sys) : Sys :=
  call (.axiosGet ipEndpoint) { s with ipPending := true }

/-- The `then` and `catch` callbacks of the IP lookup: the address, or `"unknown"`. -/
def ipLookupDone (ip : Option String) (s : Sys) : Sys :=
  match ip with
  | some a => setFormData (fun prev => { prev with ip := a }) s
  | none => setFormData (fun prev => { prev with ip := "unknown" }) s

/-- Third effect, run with the `externalShow` and `hasSubmitted` of the render it
belongs to: the delay of the timeout it starts, if it starts one. Its cleanup is
`clearTimeout`. -/
def timerEffect (externalShow : ShowProp) (hasSubmitted : Bool) : Option Nat :=
  if hasSubmitted then none
  else if externalShow = .undefined then some 10000 else none

/-- The timeout callback. -/
def timerFired (s : Sys) : Sys :=
  setShowPopup true s

/-- Cleanup of the timer effect: `clearTimeout(timer)`. -/
def cleanup (s : Sys) : Sys :=
  { s with timer := none }

/-- A re-render after a change of state or props: when the dependency array of the
timer effect changed, the cleanup of its last run is done and the effect runs again. -/
def commit (s : Sys) : Sys :=
  if (s.props.externalShow, s.state.hasSubmitted) = s.effectDeps then s
  else
    let s := cleanup s
    { s with timer := timerEffect s.props.externalShow s.state.hasSubmitted
             effectDeps := (s.props.externalShow, s.state.hasSubmitted) }

/-- Mounting: the first render starts from `initialState`; then the three effects
run, the timer effect with the values of that first render; then the state change
made by the first effect is rendered. -/
def mount (props : Props) (loc : Location) : Sys :=
  let s0 : Sys :=
    { props := props, state := initialState, location := loc, mounted := true,
      timer := none, effectDeps := (props.externalShow, initialState.hasSubmitted),
      ipPending := false, postsInFlight := 0, calls := [] }
  let s1 := urlEffect s0
  let s2 := ipEffect s1
  let s3 := { s2 with timer := timerEffect props.externalShow initialState.hasSubmitted }
  commit s3

/-- What can happen to a mounted component. -/
inductive Event where
  | advance (ms : Nat)
  | ipLookupDone (ip : Option String)
  | inputChange (target : InputTarget)
  | mobileChange (value : String)
  | close
  | submit
  | postDone (outcome : PostOutcome)
  | acknowledge
  | setProps (props : Props)
  | unmount
  deriving DecidableEq

/-- One event. The user can only act on what is rendered, and a disabled submit
button does not submit; a settled request needs a request in flight; after
teardown the state setters do nothing. -/
def step (e : Event) (s : Sys) : Sys :=
  if !s.mounted then
    match e with
    | .postDone outcome =>
      if 0 < s.postsInFlight then { (handleSubmitResume outcome s).2 with state := s.state }
      else s
    | _ => s
  else
    match e with
    | .advance ms =>
      match s.timer with
      | some left =>
        if left ≤ ms then commit (timerFired { s with timer := none })
        else { s with timer := some (left - ms) }
      | none => s
    | .ipLookupDone ip =>
      if s.ipPending then commit (ipLookupDone ip { s with ipPending := false }) else s
    | .inputChange target =>
      if (render s.props s.state).hasLeadForm then commit (handleInputChange target s) else s
    | .mobileChange value =>
      if (render s.props s.state).hasLeadForm then commit (handleMobileChange value s) else s
    | .close =>
      if (render s.props s.state).hasLeadForm then commit (handleClose s) else s
    | .submit =>
      if (render s.props s.state).hasLeadForm && !s.state.isSubmitting
      then commit (handleSubmitBegin s).2 else s
    | .postDone outcome =>
      if 0 < s.postsInFlight then commit (handleSubmitResume outcome s).2 else s
    | .acknowledge =>
      if (render s.props s.state).hasThankYou then commit (handleThankYouClose s) else s
    | .setProps props => commit { s with props := props }
    | .unmount => cleanup { s with mounted := false }

/-- A sequence of events, oldest first. -/
def run (es : List Event) (s : Sys) : Sys :=
  es.foldl (fun acc e => step e acc) s

/-- The time that passes in a sequence of events. -/
def elapsed (es : List Event) : Nat :=
  (es.map (fun e => match e with | .advance ms => ms | _ => 0)).sum

/-- The states a component goes through after it was mounted. -/
def Reachable (s : Sys) : Prop :=
  ∃ props loc es, s = run es (mount props loc)

/-- The props of a parent that forces the popup open and passes a close callback. -/
def forcedOpen : Props :=
  { externalShow := .boolean true, externalOnClose := true }

/-- A page whose URL carries `submitted=true`. -/
def submittedPage : Location :=
  { pathname := "/", search := "?submitted=true", hash := "", rewritable := true }

/-- A page whose URL has no query. -/
def plainPage : Location :=
  { pathname := "/", search := "", hash := "", rewritable := true }

/-- A submitted session whose parent forces the popup open, with the internal flag
set as well and the confirmation not dismissed. -/
def submittedState : State :=
  { initialState with showPopup := true, showThankYou := true, hasSubmitted := true }

/-- The events of a visit in which the parent neither changes the props nor tears
the component down. -/
def Event.keepsComponent : Event → Bool
  | .setProps _ => false
  | .unmount => false
  | _ => true

/-- What holds of every state the component goes through: the dependency array
recorded with the timer effect is the current one while mounted; a pending timeout
belongs to a mounted component, has between 1 and 10000 ms left and was started
without override and without submission; the confirmation is only flagged in a
submitted session. -/
def Inv (s : Sys) : Prop :=
  (s.mounted = true → s.effectDeps = (s.props.externalShow, s.state.hasSubmitted)) ∧
  (∀ left, s.timer = some left →
    s.mounted = true ∧ 0 < left ∧ left ≤ 10000 ∧ s.effectDeps = (.undefined, false)) ∧
  (s.state.showThankYou = true → s.state.hasSubmitted = true)

/-- A visit without override and without submission in which `t` ms have passed and
the timeout has not fired yet. -/
def Waiting (t : Nat) (s : Sys) : Prop :=
  s.mounted = true ∧ s.props.externalShow = .undefined ∧ s.state.hasSubmitted = false ∧
    s.state.showPopup = false ∧ s.state.showThankYou = false ∧ s.postsInFlight = 0 ∧
    s.effectDeps = (.undefined, false) ∧ s.timer = some (10000 - t) ∧ t < 10000

/-- A visit to a page marked as submitted in which the visitor waits, tries every
control and the parent forces the popup open. -/
def submittedVisit : List Event :=
  [.advance 10000, .ipLookupDone none, .close, .submit, .postDone .rejected, .acknowledge,
   .setProps forcedOpen, .advance 5000]

/-- A visit without override: the address arrives and 9999 ms pass. -/
def waitingVisit : List Event :=
  [.advance 4000, .ipLookupDone (some "203.0.113.7"), .submit, .advance 5999]

/-! ## Regular expressions: the matcher decides the declarative semantics -/

namespace RegExp

theorem matches_empty_iff {s : List Char} : Matches empty s ↔ False := by
  constructor
  · intro h; cases h
  · intro h; exact h.elim

theorem matches_eps_iff {s : List Char} : Matches eps s ↔ s = [] := by
  constructor
  · intro h; cases h; rfl
  · rintro rfl; exact Matches.eps

theorem matches_cls_iff {p : Char → Bool} {s : List Char} :
    Matches (cls p) s ↔ ∃ c, p c = true ∧ s = [c] := by
  constructor
  · intro h
    cases h with
    | cls _ c hc => exact ⟨c, hc, rfl⟩
  · rintro ⟨c, hc, rfl⟩
    exact Matches.cls p c hc

theorem matches_seq_iff {a b : RegExp} {s : List Char} :
    Matches (seq a b) s ↔ ∃ u v, s = u ++ v ∧ Matches a u ∧ Matches b v := by
  constructor
  · intro h
    cases h with
    | seq _ _ u v hu hv => exact ⟨u, v, rfl, hu, hv⟩
  · rintro ⟨u, v, rfl, hu, hv⟩
    exact Matches.seq a b u v hu hv

theorem matches_alt_iff {a b : RegExp} {s : List Char} :
    Matches (alt a b) s ↔ Matches a s ∨ Matches b s := by
  constructor
  · intro h
    cases h with
    | altL _ _ _ h => exact Or.inl h
    | altR _ _ _ h => exact Or.inr h
  · rintro (h | h)
    · exact Matches.altL a b s h
    · exact Matches.altR a b s h

/-- A non-empty match of `star a` starts with a non-empty match of `a`. -/
theorem matches_star_cons {a : RegExp} {c : Char} {s : List Char}
    (h : Matches (star a) (c :: s)) :
    ∃ u v, s = u ++ v ∧ Matches a (c :: u) ∧ Matches (star a) v := by
  generalize hr : star a = r at h
  generalize hw : c :: s = w at h
  induction h generalizing s with
  | eps => cases hr
  | cls => cases hr
  | seq => cases hr
  | altL => cases hr
  | altR => cases hr
  | starNil => cases hw
  | starCons a2 u v hu hv _ ihv =>
    cases hr
    cases u with
    | nil => exact ihv rfl (by simpa using hw)
    | cons x u2 =>
      simp only [List.cons_append, List.cons.injEq] at hw
      obtain ⟨rfl, rfl⟩ := hw
      exact ⟨u2, v, rfl, hu, hv⟩

theorem nullable_iff (r : RegExp) : nullable r = true ↔ Matches r [] := by
  induction r with
  | empty => simp [nullable, matches_empty_iff]
  | eps => simp [nullable, matches_eps_iff]
  | cls p => simp [nullable, matches_cls_iff]
  | seq a b iha ihb =>
    simp only [nullable, Bool.and_eq_true, iha, ihb, matches_seq_iff]
    constructor
    · rintro ⟨ha, hb⟩
      exact ⟨[], [], rfl, ha, hb⟩
    · rintro ⟨u, v, huv, hu, hv⟩
      have h := List.append_eq_nil.mp huv.symm
      rw [h.1] at hu
      rw [h.2] at hv
      exact ⟨hu, hv⟩
  | alt a b iha ihb => simp [nullable, iha, ihb, matches_alt_iff]
  | star a _ => simp [nullable, Matches.starNil]

theorem deriv_iff (r : RegExp) (c : Char) (s : List Char) :
    Matches (deriv r c) s ↔ Matches r (c :: s) := by
  induction r generalizing s with
  | empty => simp [deriv, matches_empty_iff]
  | eps => simp [deriv, matches_empty_iff, matches_eps_iff]
  | cls p =>
    by_cases hp : p c = true
    · simp only [deriv, hp, if_true, matches_eps_iff, matches_cls_iff]
      constructor
      · rintro rfl
        exact ⟨c, hp, rfl⟩
      · rintro ⟨x, _, hs⟩
        simp only [List.cons.injEq] at hs
        exact hs.2
    · simp only [deriv, hp, matches_cls_iff, matches_empty_iff, Bool.false_eq_true, if_false,
        false_iff, not_exists, not_and]
      intro x hx hs
      simp only [List.cons.injEq] at hs
      exact hp (hs.1 ▸ hx)
  | seq a b iha ihb =>
    have key : Matches (seq a b) (c :: s) ↔
        (∃ u v, s = u ++ v ∧ Matches a (c :: u) ∧ Matches b v) ∨
          (Matches a [] ∧ Matches b (c :: s)) := by
      rw [matches_seq_iff]
      constructor
      · rintro ⟨u, v, huv, hu, hv⟩
        cases u with
        | nil => exact Or.inr ⟨hu, by simpa [huv] using hv⟩
        | cons x u2 =>
          simp only [List.cons_append, List.cons.injEq] at huv
          obtain ⟨rfl, rfl⟩ := huv
          exact Or.inl ⟨u2, v, rfl, hu, hv⟩
      · rintro (⟨u, v, rfl, hu, hv⟩ | ⟨ha, hb⟩)
        · exact ⟨c :: u, v, rfl, hu, hv⟩
        · exact ⟨[], c :: s, rfl, ha, hb⟩
    rw [key]
    by_cases hn : nullable a = true
    · simp only [deriv, hn, if_true, matches_alt_iff, matches_seq_iff, iha, ihb]
      simp [(nullable_iff a).mp hn]
    · have hna : ¬ Matches a [] := fun h => hn ((nullable_iff a).mpr h)
      simp only [deriv, hn, Bool.false_eq_true, if_false, matches_seq_iff, iha]
      simp [hna]
  | alt a b iha ihb => simp [deriv, matches_alt_iff, iha, ihb]
  | star a iha =>
    simp only [deriv, matches_seq_iff, iha]
    constructor
    · rintro ⟨u, v, rfl, hu, hv⟩
      exact Matches.starCons a (c :: u) v hu hv
    · intro h
      exact matches_star_cons h

theorem foldl_deriv_iff (l : List Char) (r : RegExp) :
    nullable (l.foldl deriv r) = true ↔ Matches r l := by
  induction l generalizing r with
  | nil => simpa using nullable_iff r
  | cons c cs ih => rw [List.foldl_cons, ih, deriv_iff]

/-- The matcher is correct: `test` accepts exactly the strings the expression denotes. -/
theorem test_iff (r : RegExp) (s : String) : test r s = true ↔ Matches r s.data :=
  foldl_deriv_iff s.data r

end RegExp

/-! ## String primitives -/

theorem truthy_eq_false_iff (s : String) : truthy s = false ↔ s = "" := by
  cases s with
  | mk l => cases l <;> simp [truthy, String.ext_iff]

theorem trim_eq_empty_iff (s : String) :
    trim s = "" ↔ ∀ c ∈ s.data, isWhiteSpace c = true := by
  have hdrop : ∀ l : List Char,
      (∀ c ∈ l.dropWhile isWhiteSpace, isWhiteSpace c = true) → l.dropWhile isWhiteSpace = [] := by
    intro l h
    induction l with
    | nil => rfl
    | cons x xs ih =>
      by_cases hx : isWhiteSpace x = true
      · rw [List.dropWhile_cons_of_pos hx] at h ⊢
        exact ih h
      · rw [List.dropWhile_cons_of_neg hx] at h
        exact absurd (h x (List.mem_cons_self x xs)) hx
  simp only [trim, String.ext_iff, List.reverse_eq_nil_iff, List.dropWhile_eq_nil_iff,
    List.mem_reverse]
  constructor
  · intro h
    exact List.dropWhile_eq_nil_iff.mp (hdrop _ h)
  · intro h c hc
    rw [List.dropWhile_eq_nil_iff.mpr h] at hc
    cases hc

theorem replaceAll_nonDigit (s : String) :
    replaceAll isNonDigit "" s = ⟨s.data.filter isDigit⟩ := by
  have h : ∀ l : List Char,
      l.flatMap (fun c => if isNonDigit c = true then "".data else [c]) = l.filter isDigit := by
    intro l
    induction l with
    | nil => rfl
    | cons x xs ih =>
      rw [List.flatMap_cons, ih]
      by_cases hx : isDigit x = true
      · simp [isNonDigit, hx, List.filter_cons]
      · simp [isNonDigit, hx, List.filter_cons]
  simp only [replaceAll, h]

/-! ## The shape of an accepted email address -/

theorem matches_star_cls_iff (p : Char → Bool) (u : List Char) :
    RegExp.Matches (.star (.cls p)) u ↔ ∀ x ∈ u, p x = true := by
  induction u with
  | nil => simp [RegExp.Matches.starNil]
  | cons c cs ih =>
    constructor
    · intro h
      obtain ⟨u, v, rfl, hu, hv⟩ := RegExp.matches_star_cons h
      obtain ⟨x, hx, hxu⟩ := RegExp.matches_cls_iff.mp hu
      simp only [List.cons.injEq] at hxu
      obtain ⟨rfl, rfl⟩ := hxu
      intro y hy
      rcases List.mem_cons.mp hy with rfl | hy
      · exact hx
      · exact (ih.mp (by simpa using hv)) y hy
    · intro h
      have h1 : RegExp.Matches (.cls p) [c] :=
        RegExp.Matches.cls p c (h c (List.mem_cons_self c cs))
      have h2 : RegExp.Matches (.star (.cls p)) cs :=
        ih.mpr (fun x hx => h x (List.mem_cons_of_mem c hx))
      exact RegExp.Matches.starCons (.cls p) [c] cs h1 h2

theorem matches_plus_cls_iff (p : Char → Bool) (u : List Char) :
    RegExp.Matches (.plus (.cls p)) u ↔ u ≠ [] ∧ ∀ x ∈ u, p x = true := by
  simp only [RegExp.plus, RegExp.matches_seq_iff, RegExp.matches_cls_iff, matches_star_cls_iff]
  constructor
  · rintro ⟨a, b, rfl, ⟨c, hc, rfl⟩, hb⟩
    refine ⟨by simp, ?_⟩
    intro x hx
    rcases List.mem_cons.mp hx with rfl | hx
    · exact hc
    · exact hb x hx
  · rintro ⟨hne, h⟩
    cases u with
    | nil => exact absurd rfl hne
    | cons c cs =>
      exact ⟨[c], cs, rfl, ⟨c, h c (List.mem_cons_self c cs), rfl⟩,
        fun x hx => h x (List.mem_cons_of_mem c hx)⟩

/-- The pattern accepts exactly `local@domain.tail` with three non-empty parts free
of white space and `@`. -/
theorem matches_emailPattern_iff (s : List Char) :
    RegExp.Matches emailPattern s ↔
      ∃ a b c, s = a ++ '@' :: (b ++ '.' :: c) ∧
        (a ≠ [] ∧ ∀ x ∈ a, isNotSpaceOrAt x = true) ∧
        (b ≠ [] ∧ ∀ x ∈ b, isNotSpaceOrAt x = true) ∧
        (c ≠ [] ∧ ∀ x ∈ c, isNotSpaceOrAt x = true) := by
  simp only [emailPattern, RegExp.matches_seq_iff, matches_plus_cls_iff, RegExp.lit,
    RegExp.matches_cls_iff, beq_iff_eq]
  constructor
  · rintro ⟨a, _, rfl, ha, _, _, rfl, ⟨_, rfl, rfl⟩, b, _, rfl, hb, _, c, rfl, ⟨_, rfl, rfl⟩, hc⟩
    exact ⟨a, b, c, by simp, ha, hb, hc⟩
  · rintro ⟨a, b, c, rfl, ha, hb, hc⟩
    exact ⟨a, _, rfl, ha, ['@'], _, rfl, ⟨'@', rfl, rfl⟩, b, _, rfl, hb, ['.'], c, rfl,
      ⟨'.', rfl, rfl⟩, hc⟩

/-! ## Validation -/

theorem newErrors_eq (fd : FormData) :
    newErrors fd =
      (if trim fd.name = "" then [("name", "Name is required")] else []) ++
      (if emailPattern.test fd.email = true then [] else [("email", "Invalid email address")]) ++
      (if (fd.mobile.data.filter isDigit).length < 10
        then [("mobile", "Mobile must be at least 10 digits")] else []) ++
      (if fd.agreeTerms = true then [] else [("agreeTerms", "You must agree to the terms")]) := by
  have h1 : (!truthy (trim fd.name)) = decide (trim fd.name = "") := by
    by_cases h : trim fd.name = ""
    · rw [(truthy_eq_false_iff _).mpr h]
      simp [h]
    · have : truthy (trim fd.name) = true := by
        cases ht : truthy (trim fd.name)
        · exact absurd ((truthy_eq_false_iff _).mp ht) h
        · rfl
      simp [h, this]
  simp only [newErrors, h1, replaceAll_nonDigit, String.length]
  by_cases c1 : trim fd.name = "" <;> by_cases c2 : emailPattern.test fd.email = true <;>
    by_cases c3 : (fd.mobile.data.filter isDigit).length < 10 <;>
    by_cases c4 : fd.agreeTerms = true <;>
    simp [c1, c2, c3, c4, Obj.set]

/-- C1: `validateForm` stores an error mapping with an entry for a field exactly when
the rule of that field fails (name blank after trimming, email not matching the
pattern, fewer than ten digits in mobile, terms not agreed), with the documented
messages and no other key, leaves the rest of the state alone, and returns true
exactly when the mapping is empty; the two examples of the specification give
errors for name and mobile only, and for email and agreeTerms only. -/
theorem validateForm_entries_iff_rules_fail (s : State) :
    EntryIff (validateForm s).2.errors "name" "Name is required"
      (trim s.formData.name = "") ∧
    EntryIff (validateForm s).2.errors "email" "Invalid email address"
      (¬ RegExp.Matches emailPattern s.formData.email.data) ∧
    EntryIff (validateForm s).2.errors "mobile" "Mobile must be at least 10 digits"
      ((s.formData.mobile.data.filter isDigit).length < 10) ∧
    EntryIff (validateForm s).2.errors "agreeTerms" "You must agree to the terms"
      (s.formData.agreeTerms = false) ∧
    (∀ k ∈ (validateForm s).2.errors.keys, k ∈ ["name", "email", "mobile", "agreeTerms"]) ∧
    ((validateForm s).1 = true ↔ (validateForm s).2.errors = []) ∧
    (validateForm s).2 = { s with errors := (validateForm s).2.errors } ∧
    (validateForm { s with formData := exampleNameMobile }).2.errors =
      [("name", "Name is required"), ("mobile", "Mobile must be at least 10 digits")] ∧
    (validateForm { s with formData := exampleEmailTerms }).2.errors =
      [("email", "Invalid email address"), ("agreeTerms", "You must agree to the terms")] := by
  have hm : emailPattern.test s.formData.email = true ↔
      RegExp.Matches emailPattern s.formData.email.data := RegExp.test_iff _ _
  have e1 : newErrors exampleNameMobile =
      [("name", "Name is required"), ("mobile", "Mobile must be at least 10 digits")] := by
    decide
  have e2 : newErrors exampleEmailTerms =
      [("email", "Invalid email address"), ("agreeTerms", "You must agree to the terms")] := by
    decide
  refine ⟨?_, ?_, ?_, ?_, ?_, ?_, rfl, e1, e2⟩
  all_goals
    simp only [validateForm, newErrors_eq, EntryIff, ← hm]
    by_cases c1 : trim s.formData.name = "" <;>
      by_cases c2 : emailPattern.test s.formData.email = true <;>
      by_cases c3 : (s.formData.mobile.data.filter isDigit).length < 10 <;>
      by_cases c4 : s.formData.agreeTerms = true <;>
      simp [c1, c2, c3, c4, Obj.get, Obj.keys]

/-! ## Submission -/

theorem validateForm_true_iff (s : State) :
    (validateForm s).1 = true ↔ RulesPass s.formData := by
  have hm : emailPattern.test s.formData.email = true ↔
      RegExp.Matches emailPattern s.formData.email.data := RegExp.test_iff _ _
  simp only [validateForm, newErrors_eq, RulesPass, ← hm]
  by_cases c1 : trim s.formData.name = "" <;>
    by_cases c2 : emailPattern.test s.formData.email = true <;>
    by_cases c3 : (s.formData.mobile.data.filter isDigit).length < 10 <;>
    by_cases c4 : s.formData.agreeTerms = true <;>
    simp [c1, c2, c3, c4, Obj.keys]
  all_goals omega

theorem newErrors_of_pass {fd : FormData} (h : RulesPass fd) : newErrors fd = [] := by
  have hm : emailPattern.test fd.email = true := (RegExp.test_iff _ _).mpr h.2.1
  have h3 : ¬ (fd.mobile.data.filter isDigit).length < 10 := by
    have := h.2.2.1
    omega
  simp [newErrors_eq, h.1, hm, h3, h.2.2.2]

theorem handleSubmitBegin_of_pass {s : Sys} (h : RulesPass s.state.formData) :
    handleSubmitBegin s =
      (true, { s with
        state := { s.state with errors := [], isSubmitting := true }
        calls := s.calls ++
          [.preventDefault, .axiosPost leadEndpoint (postPayload s.state.formData)]
        postsInFlight := s.postsInFlight + 1 }) := by
  have hv : (validateForm s.state).1 = true := (validateForm_true_iff _).mpr h
  have he : (validateForm s.state).2 = { s.state with errors := [] } := by
    simp [validateForm, newErrors_of_pass h]
  simp [handleSubmitBegin, call, setIsSubmitting, hv, he]

theorem handleSubmitBegin_of_fail {s : Sys} (h : ¬ RulesPass s.state.formData) :
    handleSubmitBegin s =
      (false, { s with
        state := { s.state with errors := newErrors s.state.formData }
        calls := s.calls ++ [.preventDefault] }) := by
  have hv : (validateForm s.state).1 = false := by
    cases hb : (validateForm s.state).1
    · rfl
    · exact absurd ((validateForm_true_iff _).mp hb) h
  have he : (validateForm s.state).2 =
      { s.state with errors := newErrors s.state.formData } := rfl
  simp [handleSubmitBegin, call, hv, he]

theorem handleSubmitResume_fulfilled {s : Sys} (hw : s.location.rewritable = true) :
    handleSubmitResume .fulfilled s =
      (.normal, { s with
        state := { showPopup := false, showThankYou := true, hasSubmitted := true,
                   formData := { name := "", email := "", mobile := "", agreeTerms := false,
                                 ip := s.state.formData.ip },
                   errors := s.state.errors, isSubmitting := false }
        location := pushStateQuery "?submitted=true" s.location
        postsInFlight := s.postsInFlight - 1
        calls := s.calls ++ [.pushState "?submitted=true"] }) := by
  simp [handleSubmitResume, Stmt.seq, Stmt.exec, Stmt.tryCatchFinally, pushState, call, hw,
    setHasSubmitted, setShowPopup, setShowThankYou, setFormData, setIsSubmitting]

/-- A fulfilled request on a document where `pushState` throws ends like a rejected
one: the setters of the success path are skipped and the alert is shown. -/
theorem handleSubmitResume_fulfilled_throws {s : Sys} (hw : s.location.rewritable = false) :
    handleSubmitResume .fulfilled s =
      (.normal, { s with
        state := { s.state with isSubmitting := false }
        postsInFlight := s.postsInFlight - 1
        calls := s.calls ++
          [.pushState "?submitted=true", .alert "Submission failed. Please try again."] }) := by
  simp [handleSubmitResume, Stmt.seq, Stmt.exec, Stmt.tryCatchFinally, pushState, call, hw,
    setIsSubmitting]

theorem handleSubmitResume_rejected (s : Sys) :
    handleSubmitResume .rejected s =
      (.normal, { s with
        state := { s.state with isSubmitting := false }
        postsInFlight := s.postsInFlight - 1
        calls := s.calls ++ [.alert "Submission failed. Please try again."] }) := by
  rfl

theorem handleSubmit_of_fail (outcome : PostOutcome) {s : Sys}
    (h : ¬ RulesPass s.state.formData) :
    handleSubmit outcome s =
      (.normal, { s with
        state := { s.state with errors := newErrors s.state.formData }
        calls := s.calls ++ [.preventDefault] }) := by
  simp [handleSubmit, handleSubmitBegin_of_fail h]

theorem handleSubmit_fulfilled_of_pass {s : Sys} (h : RulesPass s.state.formData)
    (hw : s.location.rewritable = true) :
    handleSubmit .fulfilled s =
      (.normal, { s with
        state := { showPopup := false, showThankYou := true, hasSubmitted := true,
                   formData := { name := "", email := "", mobile := "", agreeTerms := false,
                                 ip := s.state.formData.ip },
                   errors := [], isSubmitting := false }
        location := pushStateQuery "?submitted=true" s.location
        calls := s.calls ++
          [.preventDefault, .axiosPost leadEndpoint (postPayload s.state.formData),
           .pushState "?submitted=true"] }) := by
  simp only [handleSubmit, handleSubmitBegin_of_pass h]
  rw [handleSubmitResume_fulfilled (by exact hw)]
  simp

theorem handleSubmit_fulfilled_throws_of_pass {s : Sys} (h : RulesPass s.state.formData)
    (hw : s.location.rewritable = false) :
    handleSubmit .fulfilled s =
      (.normal, { s with
        state := { s.state with errors := [], isSubmitting := false }
        calls := s.calls ++
          [.preventDefault, .axiosPost leadEndpoint (postPayload s.state.formData),
           .pushState "?submitted=true", .alert "Submission failed. Please try again."] }) := by
  simp only [handleSubmit, handleSubmitBegin_of_pass h]
  rw [handleSubmitResume_fulfilled_throws (by exact hw)]
  simp

theorem handleSubmit_rejected_of_pass {s : Sys} (h : RulesPass s.state.formData) :
    handleSubmit .rejected s =
      (.normal, { s with
        state := { s.state with errors := [], isSubmitting := false }
        calls := s.calls ++
          [.preventDefault, .axiosPost leadEndpoint (postPayload s.state.formData),
           .alert "Submission failed. Please try again."] }) := by
  simp [handleSubmit, handleSubmitBegin_of_pass h, handleSubmitResume_rejected]

theorem rulesPass_validForm : RulesPass validForm :=
  ⟨by decide, (RegExp.test_iff emailPattern validForm.email).mp (by decide), by decide, rfl⟩

/-- C2: `handleSubmit` issues a request exactly when the four validation rules
pass, and then exactly one, to the lead endpoint, with the payload
`{name, email, mobile, ip}` in which name, email and ip are the form values and
mobile is the entered mobile with the non-digits removed, digits in their order:
only digits, at least ten of them. -/
theorem handleSubmit_posts_iff_rules_pass (outcome : PostOutcome) (s : Sys) :
    (RulesPass s.state.formData ↔ postsOf (issued s (handleSubmit outcome s).2) ≠ []) ∧
    (RulesPass s.state.formData →
      postsOf (issued s (handleSubmit outcome s).2) =
        [(leadEndpoint, [("name", s.state.formData.name), ("email", s.state.formData.email),
          ("mobile", ⟨s.state.formData.mobile.data.filter isDigit⟩),
          ("ip", s.state.formData.ip)])] ∧
      10 ≤ (s.state.formData.mobile.data.filter isDigit).length) ∧
    (∀ c ∈ s.state.formData.mobile.data.filter isDigit, isDigit c = true) ∧
    (s.state.formData.mobile.data.filter isDigit).Sublist s.state.formData.mobile.data := by
  have hpass : RulesPass s.state.formData →
      postsOf (issued s (handleSubmit outcome s).2) =
        [(leadEndpoint, [("name", s.state.formData.name), ("email", s.state.formData.email),
          ("mobile", ⟨s.state.formData.mobile.data.filter isDigit⟩),
          ("ip", s.state.formData.ip)])] := by
    intro h
    cases outcome
    · cases hw : s.location.rewritable
      · simp [handleSubmit_fulfilled_throws_of_pass h hw, issued, postsOf, postPayload,
          replaceAll_nonDigit]
      · simp [handleSubmit_fulfilled_of_pass h hw, issued, postsOf, postPayload,
          replaceAll_nonDigit]
    · simp [handleSubmit_rejected_of_pass h, issued, postsOf, postPayload, replaceAll_nonDigit]
  refine ⟨⟨fun h => by simp [hpass h], fun h => ?_⟩, fun h => ⟨hpass h, h.2.2.1⟩, ?_,
    List.filter_sublist _⟩
  · by_contra hn
    apply h
    simp [handleSubmit_of_fail outcome hn, issued, postsOf]
  · intro c hc
    exact (List.mem_filter.mp hc).2

/-- The request of a visitor who typed the mobile with a prefix, a blank and a dash. -/
theorem handleSubmit_posts_iff_rules_pass_witness :
    RulesPass filledSys.state.formData ∧
      postsOf (issued filledSys (handleSubmit .fulfilled filledSys).2) =
        [(leadEndpoint, [("name", "Jo"), ("email", "a@b.com"), ("mobile", "919876543210"),
          ("ip", "203.0.113.7")])] :=
  ⟨rulesPass_validForm,
    ((handleSubmit_posts_iff_rules_pass .fulfilled filledSys).2.1 rulesPass_validForm).1⟩

/-- C3: in an `about:blank` document the request of a valid form is fulfilled and
yet `handleSubmit` ends in its catch block: `pushState`, the first statement after the
`await` inside the `try`, throws before any setter runs, so the failure alert is shown,
the form keeps its values and hasSubmitted and showThankYou stay false, where the
claim has the fields reset, hasSubmitted true and showThankYou true; the same
submission on a page that accepts `pushState` ends in the state of the claim. -/
theorem handleSubmit_fulfilled_alerts_when_pushState_throws :
    RulesPass filledSysBlank.state.formData ∧
    issued filledSysBlank (handleSubmit .fulfilled filledSysBlank).2 =
      [.preventDefault,
       .axiosPost leadEndpoint [("name", "Jo"), ("email", "a@b.com"),
         ("mobile", "919876543210"), ("ip", "203.0.113.7")],
       .pushState "?submitted=true",
       .alert "Submission failed. Please try again."] ∧
    (handleSubmit .fulfilled filledSysBlank).2.state =
      { showPopup := false, showThankYou := false, hasSubmitted := false,
        formData := validForm, errors := [], isSubmitting := false } ∧
    (handleSubmit .fulfilled filledSysBlank).2.location = blankDocument ∧
    (handleSubmit .fulfilled filledSys).2.state =
      { showPopup := false, showThankYou := true, hasSubmitted := true,
        formData := { name := "", email := "", mobile := "", agreeTerms := false,
                      ip := "203.0.113.7" },
        errors := [], isSubmitting := false } := by
  refine ⟨rulesPass_validForm, ?_, ?_, ?_, ?_⟩
  · rw [handleSubmit_fulfilled_throws_of_pass rulesPass_validForm rfl]
    decide
  · rw [handleSubmit_fulfilled_throws_of_pass rulesPass_validForm rfl]
    rfl
  · rw [handleSubmit_fulfilled_throws_of_pass rulesPass_validForm rfl]
    rfl
  · rw [handleSubmit_fulfilled_of_pass rulesPass_validForm rfl]
    rfl

/-- C4: with a valid form and a request that fails, `handleSubmit` shows the failure
alert and completes normally in a state where the form data, hasSubmitted, showPopup
and showThankYou are what they were, the page URL is untouched and isSubmitting is
false, so that the submit control is enabled with its idle label; whatever the
outcome and the form, no exception leaves `handleSubmit`. -/
theorem handleSubmit_rejected_final_state (s : Sys) (h : RulesPass s.state.formData) :
    (handleSubmit .rejected s).1 = .normal ∧
    issued s (handleSubmit .rejected s).2 =
      [.preventDefault, .axiosPost leadEndpoint (postPayload s.state.formData),
       .alert "Submission failed. Please try again."] ∧
    (handleSubmit .rejected s).2.state.formData = s.state.formData ∧
    (handleSubmit .rejected s).2.state.hasSubmitted = s.state.hasSubmitted ∧
    (handleSubmit .rejected s).2.state.showPopup = s.state.showPopup ∧
    (handleSubmit .rejected s).2.state.showThankYou = s.state.showThankYou ∧
    (handleSubmit .rejected s).2.location = s.location ∧
    (handleSubmit .rejected s).2.state.isSubmitting = false ∧
    (leadFormOf (handleSubmit .rejected s).2.state).submitDisabled = false ∧
    (leadFormOf (handleSubmit .rejected s).2.state).submitLabel = "Submit your request" ∧
    (∀ (outcome : PostOutcome) (s1 : Sys), (handleSubmit outcome s1).1 = .normal) := by
  refine ⟨?_, ?_, ?_, ?_, ?_, ?_, ?_, ?_, ?_, ?_, ?_⟩
  any_goals (rw [handleSubmit_rejected_of_pass h])
  · simp [issued]
  · rfl
  · rfl
  · intro outcome s1
    by_cases h1 : RulesPass s1.state.formData
    · cases outcome
      · cases hw : s1.location.rewritable
        · rw [handleSubmit_fulfilled_throws_of_pass h1 hw]
        · rw [handleSubmit_fulfilled_of_pass h1 hw]
      · rw [handleSubmit_rejected_of_pass h1]
    · rw [handleSubmit_of_fail outcome h1]

/-- The calls and the form data after a failed submission of the filled form. -/
theorem handleSubmit_rejected_final_state_witness :
    RulesPass filledSys.state.formData ∧
      issued filledSys (handleSubmit .rejected filledSys).2 =
        [.preventDefault,
         .axiosPost leadEndpoint [("name", "Jo"), ("email", "a@b.com"),
           ("mobile", "919876543210"), ("ip", "203.0.113.7")],
         .alert "Submission failed. Please try again."] ∧
      (handleSubmit .rejected filledSys).2.state.formData = validForm :=
  ⟨rulesPass_validForm,
    ((handleSubmit_rejected_final_state filledSys rulesPass_validForm).2.1).trans (by decide),
    (handleSubmit_rejected_final_state filledSys rulesPass_validForm).2.2.1⟩

/-! ## Rendering -/

theorem render_hasLeadForm (props : Props) (s : State) :
    (render props s).hasLeadForm = (!s.hasSubmitted && isShown props s) := by
  simp only [render]
  split_ifs <;> simp_all [View.hasLeadForm]

theorem render_hasThankYou (props : Props) (s : State) :
    (render props s).hasThankYou =
      (s.showThankYou && (s.hasSubmitted || isShown props s)) := by
  simp only [render]
  split_ifs <;> simp_all [View.hasThankYou, leadFormOf]

/-- C5: in a render of a submitted session the lead form is not rendered, whatever
the override and the internal visibility flag: the output is the confirmation modal
when showThankYou is true and nothing otherwise. -/
theorem render_of_hasSubmitted (props : Props) (s : State) (h : s.hasSubmitted = true) :
    render props s = (if s.showThankYou then View.thankYouModal else View.null) ∧
    (render props s).hasLeadForm = false := by
  cases hs : s.showThankYou <;> simp [render, h, hs, View.hasLeadForm]

/-- A submitted session with the popup forced open shows the confirmation only. -/
theorem render_of_hasSubmitted_witness :
    submittedState.hasSubmitted = true ∧ render forcedOpen submittedState = View.thankYouModal :=
  ⟨rfl, (render_of_hasSubmitted forcedOpen submittedState rfl).1⟩

/-- C6: on a page with `?submitted=true` and a parent that forces the popup open, the
render that precedes the mount effects starts from `hasSubmitted = false` and
outputs the lead form; only the render after the effects outputs nothing. -/
theorem first_render_ignores_submitted_url :
    detectSubmitted submittedPage.search = true ∧
    (render forcedOpen initialState).hasLeadForm = true ∧
    render forcedOpen (mount forcedOpen submittedPage).state = View.null := by
  decide

/-! ## The submitted fact in the URL -/

theorem commit_state (s : Sys) : (commit s).state = s.state := by
  unfold commit
  split <;> rfl

theorem commit_props (s : Sys) : (commit s).props = s.props := by
  unfold commit
  split <;> rfl

theorem commit_mounted (s : Sys) : (commit s).mounted = s.mounted := by
  unfold commit
  split <;> rfl

theorem mount_state (props : Props) (loc : Location) :
    (mount props loc).state =
      if detectSubmitted loc.search then { initialState with hasSubmitted := true }
      else initialState := by
  unfold mount
  rw [commit_state]
  cases h : detectSubmitted loc.search <;> simp [urlEffect, ipEffect, call, setHasSubmitted, h]

/-- C7: whatever the page URL was, when `handleSubmit` of a valid form is fulfilled
on a page that accepts `pushState`, the URL it writes keeps the path, has the query
`?submitted=true` and no fragment, and the detection at mount marks a session
started on it as submitted; whatever the form, the outcome and the page,
`handleSubmit` leaves the URL alone or writes such a URL; and the detection marks
a session only when the first `submitted` parameter of the URL has the value `true`. -/
theorem submitted_survives_reload (s : Sys) (props : Props)
    (h : RulesPass s.state.formData) (hw : s.location.rewritable = true) :
    (handleSubmit .fulfilled s).2.location =
      { pathname := s.location.pathname, search := "?submitted=true", hash := "",
        rewritable := true } ∧
    detectSubmitted (handleSubmit .fulfilled s).2.location.search = true ∧
    (mount props (handleSubmit .fulfilled s).2.location).state.hasSubmitted = true ∧
    (∀ (outcome : PostOutcome) (s1 : Sys),
      (handleSubmit outcome s1).2.location = s1.location ∨
      ((handleSubmit outcome s1).2.location.search = "?submitted=true" ∧
        (mount props (handleSubmit outcome s1).2.location).state.hasSubmitted = true)) ∧
    (∀ loc : Location, (mount props loc).state.hasSubmitted = true ↔
      paramsGet (urlSearchParams loc.search) "submitted" = some "true") ∧
    (∀ search : String, detectSubmitted search = true ↔
      ∃ before after, urlSearchParams search = before ++ ("submitted", "true") :: after ∧
        ∀ p ∈ before, p.1 ≠ "submitted") := by
  have hfull : (handleSubmit .fulfilled s).2.location =
      { pathname := s.location.pathname, search := "?submitted=true", hash := "",
        rewritable := true } := by
    rw [handleSubmit_fulfilled_of_pass h hw]
    simp [pushStateQuery, hw]
  have hloc : (handleSubmit .fulfilled s).2.location.search = "?submitted=true" := by
    rw [hfull]
  have hdet : detectSubmitted "?submitted=true" = true := by decide
  have hmount : ∀ loc : Location,
      (mount props loc).state.hasSubmitted = detectSubmitted loc.search := by
    intro loc
    rw [mount_state]
    cases detectSubmitted loc.search <;> rfl
  refine ⟨hfull, by rw [hloc]; exact hdet, by rw [hmount, hloc]; exact hdet, ?_, ?_, ?_⟩
  · intro outcome s1
    by_cases h1 : RulesPass s1.state.formData
    · cases outcome
      · cases hw1 : s1.location.rewritable
        · left
          rw [handleSubmit_fulfilled_throws_of_pass h1 hw1]
        · right
          have hs1 : (handleSubmit .fulfilled s1).2.location.search = "?submitted=true" := by
            rw [handleSubmit_fulfilled_of_pass h1 hw1]
            rfl
          exact ⟨hs1, by rw [hmount, hs1]; exact hdet⟩
      · left
        rw [handleSubmit_rejected_of_pass h1]
    · left
      rw [handleSubmit_of_fail outcome h1]
  · intro loc
    rw [hmount]
    simp [detectSubmitted]
  · intro search
    simp only [detectSubmitted, paramsGet, decide_eq_true_eq]
    constructor
    · intro hg
      cases hf : (urlSearchParams search).find? (fun p => p.1 = "submitted") with
      | none => simp [hf] at hg
      | some p =>
        simp only [hf, Option.some.injEq] at hg
        obtain ⟨hp, as, bs, hl, has⟩ := List.find?_eq_some.mp hf
        refine ⟨as, bs, ?_, ?_⟩
        · rw [hl]
          have h1 : p.1 = "submitted" := by simpa using hp
          have : p = ("submitted", "true") := Prod.ext h1 hg
          rw [this]
        · intro q hq
          simpa using has q hq
    · rintro ⟨as, bs, hl, has⟩
      have hf : (urlSearchParams search).find? (fun p => p.1 = "submitted") =
          some ("submitted", "true") := by
        rw [List.find?_eq_some]
        exact ⟨by simp, as, bs, hl, fun q hq => by simpa using has q hq⟩
      simp [hf]

/-- A reload after the submission of the filled form starts as submitted. -/
theorem submitted_survives_reload_witness :
    RulesPass filledSys.state.formData ∧
      (mount forcedOpen (handleSubmit .fulfilled filledSys).2.location).state.hasSubmitted
        = true :=
  ⟨rulesPass_validForm,
    (submitted_survives_reload filledSys forcedOpen rulesPass_validForm rfl).2.2.1⟩

/-! ## Closing the form -/

/-- C8, as stated, fails: with the override `show = true` unchanged, the lead form
is rendered before the close control is activated and is still rendered after. -/
theorem handleClose_keeps_forced_form :
    (render (mount forcedOpen plainPage).props
      (mount forcedOpen plainPage).state).hasLeadForm = true ∧
    (handleClose (mount forcedOpen plainPage)).props = (mount forcedOpen plainPage).props ∧
    (render (handleClose (mount forcedOpen plainPage)).props
      (handleClose (mount forcedOpen plainPage)).state).hasLeadForm = true := by
  decide

/-- C8, amended: in a state in which the lead form is rendered, `handleClose` sets
the internal flag to false, leaves the props alone and calls the close callback
once when one is supplied and not at all otherwise; after it the lead form is not
rendered when visibility came from the internal flag, and is still rendered when a
boolean override drives visibility. -/
theorem handleClose_hides_internal_form (s : Sys)
    (h : (render s.props s.state).hasLeadForm = true) :
    (handleClose s).props = s.props ∧
    (handleClose s).state = { s.state with showPopup := false } ∧
    issued s (handleClose s) = (if s.props.externalOnClose then [.externalOnClose] else []) ∧
    ((∀ b, s.props.externalShow ≠ .boolean b) →
      (render (handleClose s).props (handleClose s).state).hasLeadForm = false) ∧
    ((∃ b, s.props.externalShow = .boolean b) →
      (render (handleClose s).props (handleClose s).state).hasLeadForm = true) := by
  have hprops : (handleClose s).props = s.props := by
    simp only [handleClose, setShowPopup, call]
    split <;> rfl
  have hstate : (handleClose s).state = { s.state with showPopup := false } := by
    simp only [handleClose, setShowPopup, call]
    split <;> rfl
  refine ⟨hprops, hstate, ?_, ?_, ?_⟩
  · cases hc : s.props.externalOnClose <;> simp [handleClose, setShowPopup, call, issued, hc]
  · intro hb
    rw [render_hasLeadForm, hprops, hstate]
    cases hx : s.props.externalShow with
    | boolean b => exact absurd hx (hb b)
    | undefined => simp [isShown, hx]
    | other => simp [isShown, hx]
  · rintro ⟨b, hb⟩
    rw [render_hasLeadForm] at h ⊢
    rw [hprops, hstate]
    simpa [isShown, hb] using h

/-- The form shown by the timer is hidden by the close control, which calls the callback. -/
theorem handleClose_hides_internal_form_witness :
    (render (run [.advance 10000] (mount ⟨.undefined, true⟩ plainPage)).props
      (run [.advance 10000] (mount ⟨.undefined, true⟩ plainPage)).state).hasLeadForm = true ∧
    (render (handleClose (run [.advance 10000] (mount ⟨.undefined, true⟩ plainPage))).props
      (handleClose (run [.advance 10000]
        (mount ⟨.undefined, true⟩ plainPage))).state).hasLeadForm = false ∧
    issued (run [.advance 10000] (mount ⟨.undefined, true⟩ plainPage))
      (handleClose (run [.advance 10000] (mount ⟨.undefined, true⟩ plainPage))) =
        [.externalOnClose] :=
  ⟨by decide,
    (handleClose_hides_internal_form (run [.advance 10000] (mount ⟨.undefined, true⟩ plainPage))
      (by decide)).2.2.2.1 (by decide),
    ((handleClose_hides_internal_form (run [.advance 10000]
      (mount ⟨.undefined, true⟩ plainPage)) (by decide)).2.2.1).trans (by decide)⟩

/-! ## Invariants of the life of the component -/

theorem commit_eq_of_deps {s : Sys}
    (h : (s.props.externalShow, s.state.hasSubmitted) = s.effectDeps) : commit s = s := by
  simp [commit, h]

theorem commit_timer_of_deps_ne {s : Sys}
    (h : (s.props.externalShow, s.state.hasSubmitted) ≠ s.effectDeps) :
    (commit s).timer = timerEffect s.props.externalShow s.state.hasSubmitted := by
  simp [commit, h, cleanup]

theorem commit_effectDeps (s : Sys) :
    (commit s).effectDeps = (s.props.externalShow, s.state.hasSubmitted) := by
  unfold commit
  split
  next h => exact h.symm
  next => rfl

theorem timerEffect_eq_some {x : ShowProp} {b : Bool} {left : Nat}
    (h : timerEffect x b = some left) : left = 10000 ∧ x = .undefined ∧ b = false := by
  unfold timerEffect at h
  split_ifs at h with h1 h2
  · simp only [Option.some.injEq] at h
    exact ⟨h.symm, h2, by simpa using h1⟩

/-- A re-render of a mounted component restores the invariant when the pending
timeout, if any, is in range and was started under the recorded dependencies. -/
theorem commit_inv {s : Sys} (hm : s.mounted = true)
    (ht : ∀ left, s.timer = some left →
      0 < left ∧ left ≤ 10000 ∧ s.effectDeps = (.undefined, false))
    (hty : s.state.showThankYou = true → s.state.hasSubmitted = true) : Inv (commit s) := by
  by_cases h : (s.props.externalShow, s.state.hasSubmitted) = s.effectDeps
  · rw [commit_eq_of_deps h]
    exact ⟨fun _ => h.symm, fun left hl => ⟨hm, ht left hl⟩, hty⟩
  · refine ⟨fun _ => ?_, fun left hl => ?_, ?_⟩
    · rw [commit_effectDeps, commit_props, commit_state]
    · rw [commit_timer_of_deps_ne h] at hl
      obtain ⟨h1, h2, h3⟩ := timerEffect_eq_some hl
      refine ⟨by rw [commit_mounted]; exact hm, by omega, by omega, ?_⟩
      rw [commit_effectDeps, h2, h3]
    · rw [commit_state]
      exact hty

theorem mount_inv (props : Props) (loc : Location) : Inv (mount props loc) := by
  unfold mount
  apply commit_inv
  · cases h : detectSubmitted loc.search <;> simp [urlEffect, ipEffect, call, setHasSubmitted, h]
  · intro left hl
    have hl2 : timerEffect props.externalShow initialState.hasSubmitted = some left := by
      cases h : detectSubmitted loc.search <;>
        simpa [urlEffect, ipEffect, call, setHasSubmitted, h] using hl
    obtain ⟨h1, h2, h3⟩ := timerEffect_eq_some hl2
    refine ⟨by omega, by omega, ?_⟩
    cases h : detectSubmitted loc.search <;>
      simp [urlEffect, ipEffect, call, setHasSubmitted, h, h2, initialState]
  · cases h : detectSubmitted loc.search <;>
      simp [urlEffect, ipEffect, call, setHasSubmitted, h, initialState]

theorem handleSubmitBegin_frame (s : Sys) :
    (handleSubmitBegin s).2.mounted = s.mounted ∧
    (handleSubmitBegin s).2.timer = s.timer ∧
    (handleSubmitBegin s).2.effectDeps = s.effectDeps ∧
    (handleSubmitBegin s).2.props = s.props ∧
    (handleSubmitBegin s).2.state.showThankYou = s.state.showThankYou ∧
    (handleSubmitBegin s).2.state.hasSubmitted = s.state.hasSubmitted ∧
    (handleSubmitBegin s).2.state.showPopup = s.state.showPopup := by
  by_cases h : RulesPass s.state.formData
  · rw [handleSubmitBegin_of_pass h]
    simp
  · rw [handleSubmitBegin_of_fail h]
    simp

theorem handleSubmitResume_frame (outcome : PostOutcome) (s : Sys) :
    (handleSubmitResume outcome s).2.mounted = s.mounted ∧
    (handleSubmitResume outcome s).2.timer = s.timer ∧
    (handleSubmitResume outcome s).2.effectDeps = s.effectDeps ∧
    (handleSubmitResume outcome s).2.props = s.props := by
  cases outcome
  · cases hw : s.location.rewritable
    · rw [handleSubmitResume_fulfilled_throws hw]
      simp
    · rw [handleSubmitResume_fulfilled hw]
      simp
  · rw [handleSubmitResume_rejected]
    simp

theorem handleClose_eq (s : Sys) :
    handleClose s =
      { s with
        state := { s.state with showPopup := false }
        calls := s.calls ++ (if s.props.externalOnClose then [.externalOnClose] else []) } := by
  cases h : s.props.externalOnClose <;> simp [handleClose, setShowPopup, call, h]

/-- Every event preserves the invariant. -/
theorem step_inv (e : Event) {s : Sys} (hs : Inv s) : Inv (step e s) := by
  obtain ⟨hdeps, htimer, hty⟩ := hs
  have ht : ∀ left, s.timer = some left →
      0 < left ∧ left ≤ 10000 ∧ s.effectDeps = (.undefined, false) :=
    fun left hl => (htimer left hl).2
  unfold step
  by_cases hm : s.mounted = true
  swap
  · have hnone : s.timer = none := by
      cases hl : s.timer with
      | none => rfl
      | some left => exact absurd (htimer left hl).1 hm
    rw [if_pos (by simpa using hm)]
    cases e with
    | postDone outcome =>
      simp only
      split_ifs
      · have hf := handleSubmitResume_frame outcome s
        refine ⟨fun h => absurd (hf.1 ▸ h) hm, fun left hl => ?_, hty⟩
        simp only [hf.2.1, hnone] at hl
        cases hl
      · exact ⟨hdeps, htimer, hty⟩
    | _ => exact ⟨hdeps, htimer, hty⟩
  · rw [if_neg (by simp [hm])]
    cases e with
    | advance ms =>
      simp only
      cases hl : s.timer with
      | none => exact ⟨hdeps, htimer, hty⟩
      | some left =>
        simp only
        obtain ⟨h1, h2, h3⟩ := ht left hl
        split_ifs with hle
        · apply commit_inv
          · exact hm
          · intro l hl2
            simp [timerFired, setShowPopup] at hl2
          · exact hty
        · refine ⟨hdeps, fun l hl2 => ?_, hty⟩
          simp only [Option.some.injEq] at hl2
          exact ⟨hm, by omega, by omega, h3⟩
    | ipLookupDone ip =>
      simp only
      split_ifs
      · cases ip <;> exact commit_inv hm ht hty
      · exact ⟨hdeps, htimer, hty⟩
    | inputChange target =>
      simp only
      split_ifs
      · exact commit_inv hm ht hty
      · exact ⟨hdeps, htimer, hty⟩
    | mobileChange value =>
      simp only
      split_ifs
      · exact commit_inv hm ht hty
      · exact ⟨hdeps, htimer, hty⟩
    | close =>
      simp only
      split_ifs
      · rw [handleClose_eq]
        exact commit_inv hm ht hty
      · exact ⟨hdeps, htimer, hty⟩
    | submit =>
      simp only
      split_ifs
      · obtain ⟨f1, f2, f3, _, f5, f6, _⟩ := handleSubmitBegin_frame s
        apply commit_inv
        · rw [f1]; exact hm
        · rw [f2, f3]; exact ht
        · rw [f5, f6]; exact hty
      · exact ⟨hdeps, htimer, hty⟩
    | postDone outcome =>
      simp only
      split_ifs
      · obtain ⟨f1, f2, f3, _⟩ := handleSubmitResume_frame outcome s
        apply commit_inv
        · rw [f1]; exact hm
        · rw [f2, f3]; exact ht
        · cases outcome
          · cases hw : s.location.rewritable
            · rw [handleSubmitResume_fulfilled_throws hw]
              exact hty
            · rw [handleSubmitResume_fulfilled hw]
              simp
          · rw [handleSubmitResume_rejected]
            exact hty
      · exact ⟨hdeps, htimer, hty⟩
    | acknowledge =>
      simp only
      split_ifs
      · apply commit_inv
        · exact hm
        · exact ht
        · simp [handleThankYouClose, setShowThankYou]
      · exact ⟨hdeps, htimer, hty⟩
    | setProps props => exact commit_inv hm ht hty
    | unmount =>
      refine ⟨fun h => ?_, fun left hl => ?_, hty⟩
      · simp [cleanup] at h
      · simp [cleanup] at hl

theorem run_nil (s : Sys) : run [] s = s := rfl

theorem run_cons (e : Event) (es : List Event) (s : Sys) :
    run (e :: es) s = run es (step e s) := rfl

theorem run_inv (es : List Event) {s : Sys} (hs : Inv s) : Inv (run es s) := by
  induction es generalizing s with
  | nil => exact hs
  | cons e es ih => exact ih (step_inv e hs)

theorem reachable_inv {s : Sys} (h : Reachable s) : Inv s := by
  obtain ⟨props, loc, es, rfl⟩ := h
  exact run_inv es (mount_inv props loc)

theorem reachable_step (e : Event) {s : Sys} (h : Reachable s) : Reachable (step e s) := by
  obtain ⟨props, loc, es, rfl⟩ := h
  refine ⟨props, loc, es ++ [e], ?_⟩
  simp [run, List.foldl_append]

/-- An event leaves `hasSubmitted` alone and does not raise `showThankYou`, unless
it is a request that succeeded, which sets `hasSubmitted`. -/
theorem step_flags (e : Event) (s : Sys) :
    ((step e s).state.hasSubmitted = s.state.hasSubmitted ∧
      ((step e s).state.showThankYou = true → s.state.showThankYou = true)) ∨
    (e = .postDone .fulfilled ∧ (step e s).state.hasSubmitted = true) := by
  unfold step
  by_cases hm : s.mounted = true
  swap
  · rw [if_pos (by simpa using hm)]
    left
    cases e with
    | postDone outcome =>
      simp only
      split_ifs <;> exact ⟨rfl, id⟩
    | _ => exact ⟨rfl, id⟩
  · rw [if_neg (by simp [hm])]
    cases e with
    | advance ms =>
      left
      simp only
      cases hl : s.timer with
      | none => exact ⟨rfl, id⟩
      | some left =>
        simp only
        split_ifs
        · rw [commit_state]
          exact ⟨rfl, id⟩
        · exact ⟨rfl, id⟩
    | ipLookupDone ip =>
      left
      simp only
      split_ifs
      · rw [commit_state]
        cases ip <;> exact ⟨rfl, id⟩
      · exact ⟨rfl, id⟩
    | inputChange target =>
      left
      simp only
      split_ifs
      · rw [commit_state]
        exact ⟨rfl, id⟩
      · exact ⟨rfl, id⟩
    | mobileChange value =>
      left
      simp only
      split_ifs
      · rw [commit_state]
        exact ⟨rfl, id⟩
      · exact ⟨rfl, id⟩
    | close =>
      left
      simp only
      split_ifs
      · rw [commit_state, handleClose_eq]
        exact ⟨rfl, id⟩
      · exact ⟨rfl, id⟩
    | submit =>
      left
      simp only
      split_ifs
      · rw [commit_state]
        obtain ⟨_, _, _, _, f5, f6, _⟩ := handleSubmitBegin_frame s
        rw [f5, f6]
        exact ⟨rfl, id⟩
      · exact ⟨rfl, id⟩
    | postDone outcome =>
      simp only
      split_ifs
      · rw [commit_state]
        cases outcome
        · cases hw : s.location.rewritable
          · left
            rw [handleSubmitResume_fulfilled_throws hw]
            exact ⟨rfl, id⟩
          · right
            rw [handleSubmitResume_fulfilled hw]
            exact ⟨rfl, rfl⟩
        · left
          rw [handleSubmitResume_rejected]
          exact ⟨rfl, id⟩
      · exact Or.inl ⟨rfl, id⟩
    | acknowledge =>
      left
      simp only
      split_ifs
      · rw [commit_state]
        refine ⟨rfl, fun h => ?_⟩
        simp [handleThankYouClose, setShowThankYou] at h
      · exact ⟨rfl, id⟩
    | setProps props =>
      left
      simp only
      rw [commit_state]
      exact ⟨rfl, id⟩
    | unmount => exact Or.inl ⟨rfl, id⟩

/-- C10: in every state the component goes through after mounting, showThankYou
implies hasSubmitted, and no event takes hasSubmitted from true back to false; so
the confirmation modal is never rendered together with the lead form, and a
session marked as submitted by the URL in which no request succeeds renders
nothing, whatever else happens. -/
theorem thankYou_only_after_submission :
    initialState.showThankYou = false ∧
    (∀ s, Reachable s → s.state.showThankYou = true → s.state.hasSubmitted = true) ∧
    (∀ (e : Event) (s : Sys),
      s.state.hasSubmitted = true → (step e s).state.hasSubmitted = true) ∧
    (∀ s, Reachable s →
      ¬ ((render s.props s.state).hasLeadForm = true ∧
         (render s.props s.state).hasThankYou = true)) ∧
    (∀ (props : Props) (loc : Location) (es : List Event),
      detectSubmitted loc.search = true → (∀ e ∈ es, e ≠ .postDone .fulfilled) →
      render (run es (mount props loc)).props (run es (mount props loc)).state = View.null) := by
  refine ⟨rfl, fun s hs => (reachable_inv hs).2.2, ?_, ?_, ?_⟩
  · intro e s h
    rcases step_flags e s with ⟨h1, _⟩ | ⟨_, h2⟩
    · rw [h1]
      exact h
    · exact h2
  · intro s hs
    rw [render_hasLeadForm, render_hasThankYou]
    rintro ⟨h1, h2⟩
    have h3 := (reachable_inv hs).2.2
    cases hsub : s.state.hasSubmitted
    · cases hty : s.state.showThankYou
      · simp [hty] at h2
      · rw [h3 hty] at hsub
        cases hsub
    · simp [hsub] at h1
  · intro props loc es hdet hes
    have key : ∀ (es : List Event) (s : Sys), (∀ e ∈ es, e ≠ .postDone .fulfilled) →
        s.state.hasSubmitted = true → s.state.showThankYou = false →
        (run es s).state.hasSubmitted = true ∧ (run es s).state.showThankYou = false := by
      intro es
      induction es with
      | nil => exact fun s _ h1 h2 => ⟨h1, h2⟩
      | cons e es ih =>
        intro s hes h1 h2
        rw [run_cons]
        have he : e ≠ .postDone .fulfilled := hes e (List.mem_cons_self e es)
        apply ih (step e s) (fun x hx => hes x (List.mem_cons_of_mem e hx))
        · rcases step_flags e s with ⟨h3, _⟩ | ⟨h4, _⟩
          · rw [h3]
            exact h1
          · exact absurd h4 he
        · rcases step_flags e s with ⟨_, h3⟩ | ⟨h4, _⟩
          · cases hty : (step e s).state.showThankYou
            · rfl
            · rw [h3 hty] at h2
              cases h2
          · exact absurd h4 he
    have hms : (mount props loc).state = { initialState with hasSubmitted := true } := by
      rw [mount_state, hdet]
      rfl
    obtain ⟨k1, k2⟩ := key es (mount props loc) hes (by rw [hms]) (by rw [hms]; rfl)
    simp [render, k1, k2]

/-- On a page marked as submitted nothing is rendered at the end of the visit. -/
theorem thankYou_only_after_submission_witness :
    detectSubmitted submittedPage.search = true ∧
    render (run submittedVisit (mount forcedOpen submittedPage)).props
      (run submittedVisit (mount forcedOpen submittedPage)).state = View.null :=
  ⟨by decide,
    thankYou_only_after_submission.2.2.2.2 forcedOpen submittedPage submittedVisit
      (by decide) (by decide)⟩

/-! ## The auto-show timer -/

theorem mount_timer (props : Props) (loc : Location) :
    (mount props loc).timer =
      if detectSubmitted loc.search = false ∧ props.externalShow = .undefined
      then some 10000 else none := by
  unfold mount
  cases h : detectSubmitted loc.search <;> cases hx : props.externalShow <;>
    simp [urlEffect, ipEffect, call, setHasSubmitted, commit, cleanup, timerEffect, h, hx,
      initialState]

theorem mount_waiting {props : Props} {loc : Location} (hx : props.externalShow = .undefined)
    (hd : detectSubmitted loc.search = false) : Waiting 0 (mount props loc) := by
  have ht := mount_timer props loc
  have hs := mount_state props loc
  have hi := (mount_inv props loc).1
  simp only [hd, hx, and_self, if_true, Bool.false_eq_true, if_false] at ht hs
  have hm : (mount props loc).mounted = true := by
    unfold mount
    rw [commit_mounted]
    simp [urlEffect, ipEffect, call, hd]
  have hp : (mount props loc).props = props := by
    unfold mount
    rw [commit_props]
    simp [urlEffect, ipEffect, call, hd]
  have hq : (mount props loc).postsInFlight = 0 := by
    unfold mount
    simp [urlEffect, ipEffect, call, hd, commit, initialState]
  refine ⟨hm, by rw [hp, hx], by rw [hs]; rfl, by rw [hs]; rfl, by rw [hs]; rfl, hq, ?_, ht,
    by omega⟩
  rw [hi hm, hp, hx, hs]
  rfl

theorem step_waiting_advance_lt {t ms : Nat} {s : Sys} (h : Waiting t s)
    (hlt : t + ms < 10000) : Waiting (t + ms) (step (.advance ms) s) := by
  obtain ⟨hm, hx, hsub, hpop, hty, hq, hdeps, htimer, ht⟩ := h
  unfold step
  rw [if_neg (by simp [hm])]
  simp only [htimer]
  rw [if_neg (by omega)]
  exact ⟨hm, hx, hsub, hpop, hty, hq, hdeps, by simp only [Option.some.injEq]; omega, hlt⟩

theorem step_waiting_advance_ge {t ms : Nat} {s : Sys} (h : Waiting t s)
    (hge : 10000 ≤ t + ms) :
    (step (.advance ms) s).state.showPopup = true ∧ (step (.advance ms) s).timer = none ∧
      (render (step (.advance ms) s).props (step (.advance ms) s).state).hasLeadForm = true := by
  obtain ⟨hm, hx, hsub, hpop, hty, hq, hdeps, htimer, ht⟩ := h
  unfold step
  rw [if_neg (by simp [hm])]
  simp only [htimer]
  rw [if_pos (by omega)]
  have hc : commit (timerFired { s with timer := none }) = timerFired { s with timer := none } := by
    apply commit_eq_of_deps
    simp [timerFired, setShowPopup, hx, hsub, hdeps]
  rw [hc, render_hasLeadForm]
  simp [timerFired, setShowPopup, isShown, hx, hsub]

theorem step_waiting_other {t : Nat} {s : Sys} {e : Event} (h : Waiting t s)
    (hk : e.keepsComponent = true) (he : ∀ ms, e ≠ .advance ms) : Waiting t (step e s) := by
  have h0 := h
  obtain ⟨hm, hx, hsub, hpop, hty, hq, hdeps, htimer, ht⟩ := h
  have hform : (render s.props s.state).hasLeadForm = false := by
    rw [render_hasLeadForm]
    simp [isShown, hx, hpop]
  have hmodal : (render s.props s.state).hasThankYou = false := by
    rw [render_hasThankYou]
    simp [hty]
  unfold step
  rw [if_neg (by simp [hm])]
  cases e with
  | advance ms => exact absurd rfl (he ms)
  | ipLookupDone ip =>
    simp only
    split_ifs
    · have hc : commit (ipLookupDone ip { s with ipPending := false }) =
          ipLookupDone ip { s with ipPending := false } := by
        apply commit_eq_of_deps
        cases ip <;> simp [ipLookupDone, setFormData, hx, hsub, hdeps]
      rw [hc]
      cases ip <;> exact ⟨hm, hx, hsub, hpop, hty, hq, hdeps, htimer, ht⟩
    · exact h0
  | inputChange target => simpa [hform] using h0
  | mobileChange value => simpa [hform] using h0
  | close => simpa [hform] using h0
  | submit => simpa [hform] using h0
  | postDone outcome => simpa [hq] using h0
  | acknowledge => simpa [hmodal] using h0
  | setProps props => simp [Event.keepsComponent] at hk
  | unmount => simp [Event.keepsComponent] at hk

theorem run_waiting (es : List Event) {t : Nat} {s : Sys} (h : Waiting t s)
    (hk : ∀ e ∈ es, e.keepsComponent = true) (hlt : t + elapsed es < 10000) :
    Waiting (t + elapsed es) (run es s) := by
  induction es generalizing t s with
  | nil => simpa [elapsed] using h
  | cons e es ih =>
    rw [run_cons]
    have hk2 : ∀ x ∈ es, x.keepsComponent = true :=
      fun x hx => hk x (List.mem_cons_of_mem e hx)
    cases e with
    | advance ms =>
      have hel : elapsed (.advance ms :: es) = ms + elapsed es := by
        simp [elapsed]
      rw [hel] at hlt ⊢
      have := ih (step_waiting_advance_lt h (by omega : t + ms < 10000)) hk2 (by omega)
      rw [← Nat.add_assoc]
      exact this
    | ipLookupDone ip =>
      have hel : elapsed (.ipLookupDone ip :: es) = elapsed es := by simp [elapsed]
      rw [hel] at hlt ⊢
      exact ih (step_waiting_other h (hk _ (List.mem_cons_self _ _)) (by simp)) hk2 hlt
    | inputChange target =>
      have hel : elapsed (.inputChange target :: es) = elapsed es := by simp [elapsed]
      rw [hel] at hlt ⊢
      exact ih (step_waiting_other h (hk _ (List.mem_cons_self _ _)) (by simp)) hk2 hlt
    | mobileChange value =>
      have hel : elapsed (.mobileChange value :: es) = elapsed es := by simp [elapsed]
      rw [hel] at hlt ⊢
      exact ih (step_waiting_other h (hk _ (List.mem_cons_self _ _)) (by simp)) hk2 hlt
    | close =>
      have hel : elapsed (.close :: es) = elapsed es := by simp [elapsed]
      rw [hel] at hlt ⊢
      exact ih (step_waiting_other h (hk _ (List.mem_cons_self _ _)) (by simp)) hk2 hlt
    | submit =>
      have hel : elapsed (.submit :: es) = elapsed es := by simp [elapsed]
      rw [hel] at hlt ⊢
      exact ih (step_waiting_other h (hk _ (List.mem_cons_self _ _)) (by simp)) hk2 hlt
    | postDone outcome =>
      have hel : elapsed (.postDone outcome :: es) = elapsed es := by simp [elapsed]
      rw [hel] at hlt ⊢
      exact ih (step_waiting_other h (hk _ (List.mem_cons_self _ _)) (by simp)) hk2 hlt
    | acknowledge =>
      have hel : elapsed (.acknowledge :: es) = elapsed es := by simp [elapsed]
      rw [hel] at hlt ⊢
      exact ih (step_waiting_other h (hk _ (List.mem_cons_self _ _)) (by simp)) hk2 hlt
    | setProps props =>
      have := hk _ (List.mem_cons_self _ _)
      simp [Event.keepsComponent] at this
    | unmount =>
      have := hk _ (List.mem_cons_self _ _)
      simp [Event.keepsComponent] at this

theorem step_unmounted {s : Sys} (hm : s.mounted = false) (e : Event) :
    (step e s).state = s.state ∧ (step e s).mounted = false ∧ (step e s).timer = s.timer := by
  unfold step
  rw [if_pos (by simp [hm])]
  cases e with
  | postDone outcome =>
    simp only
    obtain ⟨f1, f2, _⟩ := handleSubmitResume_frame outcome s
    split_ifs
    · exact ⟨rfl, by rw [← hm]; exact f1, f2⟩
    · exact ⟨rfl, hm, rfl⟩
  | _ => exact ⟨rfl, hm, rfl⟩

theorem run_unmounted (es : List Event) {s : Sys} (hm : s.mounted = false) :
    (run es s).state = s.state ∧ (run es s).timer = s.timer := by
  induction es generalizing s with
  | nil => exact ⟨rfl, rfl⟩
  | cons e es ih =>
    rw [run_cons]
    obtain ⟨h1, h2, h3⟩ := step_unmounted hm e
    obtain ⟨h4, h5⟩ := ih h2
    exact ⟨h4.trans h1, h5.trans h3⟩

/-- C9: the timer effect starts the one-shot 10000 ms timeout exactly when the
session is not submitted and no override is supplied, and a timeout is only ever
pending under these conditions; without override and without submission the
internal flag is false and the form hidden as long as less than 10000 ms have
passed, and the flag is true and the form shown at the moment they have; teardown
cancels the timeout and nothing changes the state afterwards, a change of the
override replaces a pending timeout by what the effect starts afresh, a session
that becomes submitted has no timeout left, and without a pending timeout the
passing of time changes nothing. -/
theorem autoShow_timer_lifecycle :
    (∀ (x : ShowProp) (b : Bool),
      timerEffect x b = if b = false ∧ x = .undefined then some 10000 else none) ∧
    (∀ (props : Props) (loc : Location),
      (mount props loc).timer =
        if detectSubmitted loc.search = false ∧ props.externalShow = .undefined
        then some 10000 else none) ∧
    (∀ s, Reachable s → s.timer ≠ none →
      s.mounted = true ∧ s.state.hasSubmitted = false ∧ s.props.externalShow = .undefined) ∧
    (∀ (props : Props) (loc : Location) (es : List Event),
      props.externalShow = .undefined → detectSubmitted loc.search = false →
      (∀ e ∈ es, e.keepsComponent = true) → elapsed es < 10000 →
      ((run es (mount props loc)).state.showPopup = false ∧
        (render (run es (mount props loc)).props
          (run es (mount props loc)).state).hasLeadForm = false ∧
        (run es (mount props loc)).timer = some (10000 - elapsed es)) ∧
      (∀ ms, 10000 ≤ elapsed es + ms →
        (step (.advance ms) (run es (mount props loc))).state.showPopup = true ∧
        (step (.advance ms) (run es (mount props loc))).timer = none ∧
        (render (step (.advance ms) (run es (mount props loc))).props
          (step (.advance ms) (run es (mount props loc))).state).hasLeadForm = true)) ∧
    (∀ s : Sys, s.mounted = true →
      (step .unmount s).timer = none ∧
      ∀ es, (run es (step .unmount s)).state = s.state ∧
        (run es (step .unmount s)).timer = none) ∧
    (∀ (s : Sys) (p : Props), Reachable s → s.mounted = true →
      p.externalShow ≠ s.props.externalShow →
      (step (.setProps p) s).timer = timerEffect p.externalShow s.state.hasSubmitted) ∧
    (∀ (s : Sys) (e : Event), Reachable s → s.state.hasSubmitted = false →
      (step e s).state.hasSubmitted = true → (step e s).timer = none) ∧
    (∀ (s : Sys) (ms : Nat), s.timer = none → step (.advance ms) s = s) := by
  refine ⟨?_, mount_timer, ?_, ?_, ?_, ?_, ?_, ?_⟩
  · intro x b
    cases b <;> cases x <;> simp [timerEffect]
  · intro s hs ht
    obtain ⟨hdeps, htimer, _⟩ := reachable_inv hs
    cases hl : s.timer with
    | none => exact absurd hl ht
    | some left =>
      obtain ⟨hm, _, _, hd⟩ := htimer left hl
      rw [hdeps hm] at hd
      simp only [Prod.mk.injEq] at hd
      exact ⟨hm, hd.2, hd.1⟩
  · intro props loc es hx hd hk hlt
    have hw := run_waiting es (mount_waiting hx hd) hk (by omega)
    rw [Nat.zero_add] at hw
    refine ⟨⟨hw.2.2.2.1, ?_, hw.2.2.2.2.2.2.2.1⟩, fun ms hge => ?_⟩
    · rw [render_hasLeadForm]
      simp [isShown, hw.2.1, hw.2.2.2.1]
    · obtain ⟨h1, h2, h3⟩ := step_waiting_advance_ge hw hge
      exact ⟨h1, h2, h3⟩
  · intro s hm
    have hstep : step .unmount s = cleanup { s with mounted := false } := by
      unfold step
      rw [if_neg (by simp [hm])]
    refine ⟨by rw [hstep]; rfl, fun es => ?_⟩
    have hum : (step .unmount s).mounted = false := by rw [hstep]; rfl
    obtain ⟨h1, h2⟩ := run_unmounted es hum
    rw [h1, h2, hstep]
    exact ⟨rfl, rfl⟩
  · intro s p hs hm hp
    have hdeps := (reachable_inv hs).1 hm
    unfold step
    rw [if_neg (by simp [hm])]
    simp only
    rw [commit_timer_of_deps_ne]
    simp only [hdeps, ne_eq, Prod.mk.injEq, and_true]
    exact hp
  · intro s e hs _ hsub
    obtain ⟨hdeps, htimer, _⟩ := reachable_inv (reachable_step e hs)
    cases hl : (step e s).timer with
    | none => rfl
    | some left =>
      obtain ⟨hm, _, _, hd⟩ := htimer left hl
      rw [hdeps hm, hsub] at hd
      simp at hd
  · intro s ms ht
    unfold step
    by_cases hm : s.mounted = true
    · rw [if_neg (by simp [hm])]
      simp only [ht]
    · rw [if_pos (by simpa using hm)]

/-- After 9999 ms the form is hidden with 1 ms left, and 1 ms later it is shown. -/
theorem autoShow_timer_lifecycle_witness :
    (run waitingVisit (mount ⟨.undefined, false⟩ plainPage)).state.showPopup = false ∧
    (run waitingVisit (mount ⟨.undefined, false⟩ plainPage)).timer = some 1 ∧
    (step (.advance 1) (run waitingVisit (mount ⟨.undefined, false⟩ plainPage))).state.showPopup
      = true :=
  ⟨(autoShow_timer_lifecycle.2.2.2.1 ⟨.undefined, false⟩ plainPage waitingVisit rfl
      (by decide) (by decide) (by decide)).1.1,
    (autoShow_timer_lifecycle.2.2.2.1 ⟨.undefined, false⟩ plainPage waitingVisit rfl
      (by decide) (by decide) (by decide)).1.2.2,
    ((autoShow_timer_lifecycle.2.2.2.1 ⟨.undefined, false⟩ plainPage waitingVisit rfl
      (by decide) (by decide) (by decide)).2 1 (by decide)).1⟩

end PopupForm
